import Mathlib

/-!
Verification of the miralis-ace security monitor core against its
natural-language specification.  The definitions below are a shallow
embedding of the Rust sources (file and function names are kept);
machine integers are modelled as `Nat`, fallible code returns
`Option`/sum types, and `assert!`/`unwrap` panics are modelled as the
`none`/panic outcome of the embedded function.
-/

/-- The RISC-V general purpose registers, as in the monitor's
`GeneralPurposeRegister` enum (the virtual context stores 32 GPRs). -/
inductive GeneralPurposeRegister where
  | zero | ra | sp | gp | tp | t0 | t1 | t2 | s0 | s1
  | a0 | a1 | a2 | a3 | a4 | a5 | a6 | a7
  | s2 | s3 | s4 | s5 | s6 | s7 | s8 | s9 | s10 | s11
  | t3 | t4 | t5 | t6
deriving DecidableEq, Repr

/-- Modelled from the spec: the named CSR bank of a hart ("a named CSR bank
containing every M/S/H/VS-mode CSR").  We list the CSRs relevant to the
handlers under verification; the bank is a total valuation over these names. -/
inductive CsrName where
  | mepc | mcause | mtval | mtval2 | mtinst | mstatus | mie | mip
  | scause | stval | sepc | sstatus | stvec | sscratch | sip | sie | satp
  | vsstatus | vsepc | vscause | vstval
  | hstatus | hgatp | htval | htinst | hedeleg | hideleg
deriving DecidableEq, Repr

/-- CSR number of `htval` (RISC-V encoding), used as index into the NACL
shared-memory window. -/
def CSR_HTVAL : Nat := 0x643

/-- CSR number of `htinst` (RISC-V encoding), used as index into the NACL
shared-memory window. -/
def CSR_HTINST : Nat := 0x64A

/-- Modelled from the spec: the `HypervisorHart` ("hypervisor's M-mode view:
GPRs, CSRs, and a NACL shared-memory window").  GPRs and CSRs are total maps;
the shared-memory window maps a CSR number to the stored word. -/
structure HypervisorHart where
  gprs : GeneralPurposeRegister → Nat
  csrs : CsrName → Nat
  sharedMemory : Nat → Nat

/-- Modelled from the spec: the `ConfidentialHart`'s register state ("Each has
its own GPR bank, CSR bank"). -/
structure ConfidentialHart where
  gprs : GeneralPurposeRegister → Nat
  csrs : CsrName → Nat

/-- Length in bytes of the `ecall` instruction (`ECALL_INSTRUCTION_LENGTH`). -/
def ECALL_INSTRUCTION_LENGTH : Nat := 4

/-- SBI success code (`SBI_SUCCESS`). -/
def SBI_SUCCESS : Nat := 0

/-- The monitor's error kinds used by the embedded handlers
(`src/ace/error.rs` is outside the covered sources; the variants and their
SBI codes are modelled from the spec's error taxonomy). -/
inductive AceError where
  | invalidCall (extension_id function_id : Nat)
  | interruptSendingError (code : Nat)
  | outOfPages
  | notEnoughMemory
  | tooMuchMemory
  | reinitialization
  | notEnoughPmps
  | addressNotInConfidentialMemory
deriving DecidableEq, Repr

/-- Modelled from the spec: `Error::sbi_error_code` returns "a stable SBI
error code chosen per kind (e.g., NotSupported = -2, InvalidParam = -3,
Denied = -4, Failed = -1)"; scenario S1 fixes the unknown-call code to
NotSupported = -2.  Codes are the 64-bit two's complement values. -/
def AceError.sbi_error_code : AceError → Nat
  | .invalidCall _ _ => 2 ^ 64 - 2
  | _ => 2 ^ 64 - 1

/-- The body of `SbiResponse` (`handlers/sbi/response.rs`): the two SBI
response registers. -/
structure SbiResponse where
  a0 : Nat
  a1 : Nat
deriving DecidableEq, Repr

/-- `SbiResponse::success_with_code` (`response.rs` lines 63-68). -/
def SbiResponse.success_with_code (code : Nat) : SbiResponse :=
  { a0 := SBI_SUCCESS, a1 := code }

/-- `SbiResponse::success` (`response.rs` lines 59-61). -/
def SbiResponse.success : SbiResponse :=
  SbiResponse.success_with_code 0

/-- `SbiResponse::error` (`response.rs` lines 70-75). -/
def SbiResponse.error (e : AceError) : SbiResponse :=
  { a0 := e.sbi_error_code, a1 := 0 }

/-- `SbiResponse::declassify_to_hypervisor_hart` (`response.rs` lines 46-57):
writes `a0`, `a1` and advances the hypervisor hart's `mepc` by the ecall
instruction length. -/
def SbiResponse.declassify_to_hypervisor_hart (r : SbiResponse)
    (h : HypervisorHart) : HypervisorHart :=
  { h with
    gprs := Function.update
      (Function.update h.gprs GeneralPurposeRegister.a0 r.a0)
      GeneralPurposeRegister.a1 r.a1,
    csrs := Function.update h.csrs CsrName.mepc
      (h.csrs CsrName.mepc + ECALL_INSTRUCTION_LENGTH) }

/-- `SbiResponse::apply_to_confidential_hart` (`response.rs` lines 33-44):
writes `a0`, `a1` and advances the confidential hart's `mepc` by the ecall
instruction length. -/
def SbiResponse.apply_to_confidential_hart (r : SbiResponse)
    (h : ConfidentialHart) : ConfidentialHart :=
  { h with
    gprs := Function.update
      (Function.update h.gprs GeneralPurposeRegister.a0 r.a0)
      GeneralPurposeRegister.a1 r.a1,
    csrs := Function.update h.csrs CsrName.mepc
      (h.csrs CsrName.mepc + ECALL_INSTRUCTION_LENGTH) }

/-- The body of `MmioLoadRequest` (`handlers/mmio/mmio_load_request.rs`):
the four machine trap CSRs captured from the confidential hart. -/
structure MmioLoadRequest where
  mcause : Nat
  mtval : Nat
  mtval2 : Nat
  mtinst : Nat
deriving DecidableEq, Repr

/-- `MmioLoadRequest::declassify_to_hypervisor_hart`
(`mmio_load_request.rs` lines 69-82): exposes `scause` and `stval` via the
hart's CSRs, `htval` and `htinst` via the NACL shared memory, then applies
`SbiResponse::success()` (which writes `a0`, `a1`, and advances `mepc`). -/
def MmioLoadRequest.declassify_to_hypervisor_hart (req : MmioLoadRequest)
    (h : HypervisorHart) : HypervisorHart :=
  let h1 := { h with csrs := Function.update h.csrs CsrName.scause req.mcause }
  let h2 := { h1 with csrs := Function.update h1.csrs CsrName.stval req.mtval }
  let h3 := { h2 with
    sharedMemory := Function.update h2.sharedMemory CSR_HTVAL req.mtval2 }
  let h4 := { h3 with
    sharedMemory := Function.update h3.sharedMemory CSR_HTINST req.mtinst }
  SbiResponse.success.declassify_to_hypervisor_hart h4

/-- C1: the `MmioLoadRequest` declassification writes exactly `scause`,
`stval`, the NACL shared-memory words for `htval` and `htinst`, the SBI
response registers `a0` and `a1`, and `mepc` (advanced by the ecall
instruction length); every other hypervisor GPR, CSR and shared-memory word
keeps its previous value.  The analogous minimality holds for the
`SbiResponse` declassification, which writes only `a0`, `a1` and `mepc`. -/
theorem mmio_load_and_sbi_response_declassification_minimality
    (req : MmioLoadRequest) (resp : SbiResponse) (h : HypervisorHart) :
    ((req.declassify_to_hypervisor_hart h).csrs CsrName.scause = req.mcause ∧
     (req.declassify_to_hypervisor_hart h).csrs CsrName.stval = req.mtval ∧
     (req.declassify_to_hypervisor_hart h).sharedMemory CSR_HTVAL = req.mtval2 ∧
     (req.declassify_to_hypervisor_hart h).sharedMemory CSR_HTINST = req.mtinst ∧
     (req.declassify_to_hypervisor_hart h).gprs GeneralPurposeRegister.a0 = SBI_SUCCESS ∧
     (req.declassify_to_hypervisor_hart h).gprs GeneralPurposeRegister.a1 = 0 ∧
     (req.declassify_to_hypervisor_hart h).csrs CsrName.mepc =
       h.csrs CsrName.mepc + ECALL_INSTRUCTION_LENGTH) ∧
    (∀ r : GeneralPurposeRegister, r ≠ GeneralPurposeRegister.a0 →
      r ≠ GeneralPurposeRegister.a1 →
      (req.declassify_to_hypervisor_hart h).gprs r = h.gprs r) ∧
    (∀ c : CsrName, c ≠ CsrName.scause → c ≠ CsrName.stval → c ≠ CsrName.mepc →
      (req.declassify_to_hypervisor_hart h).csrs c = h.csrs c) ∧
    (∀ k : Nat, k ≠ CSR_HTVAL → k ≠ CSR_HTINST →
      (req.declassify_to_hypervisor_hart h).sharedMemory k = h.sharedMemory k) ∧
    ((resp.declassify_to_hypervisor_hart h).gprs GeneralPurposeRegister.a0 = resp.a0 ∧
     (resp.declassify_to_hypervisor_hart h).gprs GeneralPurposeRegister.a1 = resp.a1 ∧
     (resp.declassify_to_hypervisor_hart h).csrs CsrName.mepc =
       h.csrs CsrName.mepc + ECALL_INSTRUCTION_LENGTH) ∧
    (∀ r : GeneralPurposeRegister, r ≠ GeneralPurposeRegister.a0 →
      r ≠ GeneralPurposeRegister.a1 →
      (resp.declassify_to_hypervisor_hart h).gprs r = h.gprs r) ∧
    (∀ c : CsrName, c ≠ CsrName.mepc →
      (resp.declassify_to_hypervisor_hart h).csrs c = h.csrs c) ∧
    (∀ k : Nat, (resp.declassify_to_hypervisor_hart h).sharedMemory k = h.sharedMemory k) := by
  refine ⟨⟨rfl, rfl, ?_, rfl, rfl, rfl, rfl⟩, ?_, ?_, ?_, ⟨rfl, rfl, rfl⟩, ?_, ?_, ?_⟩
  · simp [MmioLoadRequest.declassify_to_hypervisor_hart,
      SbiResponse.declassify_to_hypervisor_hart, Function.update, CSR_HTVAL, CSR_HTINST]
  · intro r hr0 hr1
    simp [MmioLoadRequest.declassify_to_hypervisor_hart,
      SbiResponse.declassify_to_hypervisor_hart, Function.update, hr0, hr1]
  · intro c hc1 hc2 hc3
    simp [MmioLoadRequest.declassify_to_hypervisor_hart,
      SbiResponse.declassify_to_hypervisor_hart, Function.update, hc1, hc2, hc3]
  · intro k hk1 hk2
    simp [MmioLoadRequest.declassify_to_hypervisor_hart,
      SbiResponse.declassify_to_hypervisor_hart, Function.update, hk1, hk2]
  · intro r hr0 hr1
    simp [SbiResponse.declassify_to_hypervisor_hart, Function.update, hr0, hr1]
  · intro c hc
    simp [SbiResponse.declassify_to_hypervisor_hart, Function.update, hc]
  · intro k
    simp [SbiResponse.declassify_to_hypervisor_hart]

/-- Witness for C1: the minimality theorem applied at a concrete request,
response and hypervisor hart state. -/
theorem mmio_load_declassification_minimality_witness :
    ((⟨5, 0x10000000, 0x4000000, 0x2003⟩ : MmioLoadRequest).declassify_to_hypervisor_hart
        ⟨fun _ => 7, fun _ => 11, fun _ => 13⟩).gprs GeneralPurposeRegister.t0 = 7 ∧
    ((⟨5, 0x10000000, 0x4000000, 0x2003⟩ : MmioLoadRequest).declassify_to_hypervisor_hart
        ⟨fun _ => 7, fun _ => 11, fun _ => 13⟩).csrs CsrName.hgatp = 11 ∧
    ((⟨5, 0x10000000, 0x4000000, 0x2003⟩ : MmioLoadRequest).declassify_to_hypervisor_hart
        ⟨fun _ => 7, fun _ => 11, fun _ => 13⟩).sharedMemory 0 = 13 := by
  have h := mmio_load_and_sbi_response_declassification_minimality
    ⟨5, 0x10000000, 0x4000000, 0x2003⟩ ⟨0, 0⟩ ⟨fun _ => 7, fun _ => 11, fun _ => 13⟩
  exact ⟨h.2.1 GeneralPurposeRegister.t0 (by decide) (by decide),
    h.2.2.1 CsrName.hgatp (by decide) (by decide) (by decide),
    h.2.2.2.1 0 (by decide) (by decide)⟩

/-- Fence instructions issued by the PMP controller (`pmp/fence.rs`). -/
inductive Fence where
  | sfenceVma
  | hfenceGvma
deriving DecidableEq, Repr

/-- Machine state visible to the PMP controller: the `pmpcfg0` CSR (a 64-bit
register holding the configuration bytes of PMP entries 0-7) and the trace of
fences issued so far. -/
structure PmpMachine where
  pmpcfg0 : Nat
  fences : List Fence
deriving DecidableEq, Repr

/-- Modelled from the spec: `PMP_PERMISSION_RWX_MASK`, the R|W|X permission
bits of one pmpcfg byte (RISC-V: R=bit 0, W=bit 1, X=bit 2). -/
def PMP_PERMISSION_RWX_MASK : Nat := 0x7

/-- Modelled from the spec: `PMP_TOR_MASK`, the TOR address-matching mode of
one pmpcfg byte (RISC-V: A=01 in bits 3-4). -/
def PMP_TOR_MASK : Nat := 0x8

/-- `CSR.pmpcfg0.read_and_set_bits`: OR the mask into the CSR. -/
def read_and_set_bits (csr mask : Nat) : Nat := csr ||| mask

/-- `CSR.pmpcfg0.read_and_clear_bits`: AND the CSR with the complement of the
mask (within the 64-bit register). -/
def read_and_clear_bits (csr mask : Nat) : Nat := csr &&& ((2 ^ 64 - 1) ^^^ mask)

/-- `clear_caches` (`pmp/mod.rs` lines 63-68): issue `sfence.vma` then
`hfence.gvma`. -/
def clear_caches (s : PmpMachine) : PmpMachine :=
  { s with fences := s.fences ++ [Fence.sfenceVma, Fence.hfenceGvma] }

/-- `open_access_to_confidential_memory` (`pmp/mod.rs` lines 47-53): set RWX
on entry 4 (byte at bits 32-39) and TOR|RWX on entry 5 (byte at bits 40-47),
then clear the caches. -/
def open_access_to_confidential_memory (s : PmpMachine) : PmpMachine :=
  let mask := (PMP_PERMISSION_RWX_MASK <<< 32) |||
    ((PMP_TOR_MASK ||| PMP_PERMISSION_RWX_MASK) <<< 40)
  clear_caches { s with pmpcfg0 := read_and_set_bits s.pmpcfg0 mask }

/-- `close_access_to_confidential_memory` (`pmp/mod.rs` lines 55-61): clear
RWX on entries 4 and 5, then clear the caches. -/
def close_access_to_confidential_memory (s : PmpMachine) : PmpMachine :=
  let mask := (PMP_PERMISSION_RWX_MASK <<< 32) ||| (PMP_PERMISSION_RWX_MASK <<< 40)
  clear_caches { s with pmpcfg0 := read_and_clear_bits s.pmpcfg0 mask }

/-- The configuration byte of PMP entry 5 inside `pmpcfg0`. -/
def pmp5cfg (s : PmpMachine) : Nat := (s.pmpcfg0 >>> 40) &&& 0xFF

/-- Counterexample for C2: starting from the configuration produced by
`open_access_to_confidential_memory` (entry 4 = RWX, entry 5 = TOR|RWX),
`close_access_to_confidential_memory` does not clear the TOR bit of entry 5
and does not leave that entry's RWX bits set: it does the opposite, clearing
RWX on entries 4 and 5 and leaving TOR set. -/
theorem close_access_counterexample :
    ¬ (pmp5cfg (close_access_to_confidential_memory
          (open_access_to_confidential_memory ⟨0, []⟩)) &&& PMP_TOR_MASK = 0 ∧
       pmp5cfg (close_access_to_confidential_memory
          (open_access_to_confidential_memory ⟨0, []⟩)) &&& PMP_PERMISSION_RWX_MASK =
         PMP_PERMISSION_RWX_MASK) := by
  decide

/-- Bit-level characterization of `close_access_to_confidential_memory`: a bit
of `pmpcfg0` is set afterwards exactly when it was set before, lies below bit
64, and is none of the RWX bits of entries 4 (bits 32-34) and 5 (bits 40-42). -/
theorem close_access_pmpcfg0_testBit (s : PmpMachine) (i : Nat) :
    (close_access_to_confidential_memory s).pmpcfg0.testBit i = true ↔
      (s.pmpcfg0.testBit i = true ∧ ¬(32 ≤ i ∧ i ≤ 34) ∧ ¬(40 ≤ i ∧ i ≤ 42) ∧ i < 64) := by
  simp only [close_access_to_confidential_memory, clear_caches, read_and_clear_bits,
    PMP_PERMISSION_RWX_MASK]
  rw [Nat.testBit_and, Nat.testBit_xor, Nat.testBit_two_pow_sub_one, Nat.testBit_or,
    Nat.testBit_shiftLeft, Nat.testBit_shiftLeft]
  simp only [show (7 : Nat) = 2 ^ 3 - 1 from rfl, Nat.testBit_two_pow_sub_one]
  cases hb : s.pmpcfg0.testBit i
  · simp
  · simp only [Bool.true_and]
    rcases Decidable.em (i < 64) with h64 | h64 <;>
    rcases Decidable.em (32 ≤ i) with h32 | h32 <;>
    rcases Decidable.em (i - 32 < 3) with h32b | h32b <;>
    rcases Decidable.em (40 ≤ i) with h40 | h40 <;>
    rcases Decidable.em (i - 40 < 3) with h40b | h40b <;>
    simp only [h64, h32, h32b, h40, h40b, decide_eq_true_eq, decide_eq_false_iff_not,
      decide_eq_true_iff] <;> simp [h64, h32, h32b, h40, h40b] <;> omega

/-- C2 (amended): `close_access_to_confidential_memory` clears the RWX
permission bits of PMP entries 4 and 5 (so the TOR region of entry 5 grants
no access), leaves every other `pmpcfg0` bit — in particular the TOR bit of
entry 5 — unchanged, and then issues `sfence.vma` followed by
`hfence.gvma`. -/
theorem close_access_clears_rwx_and_fences (s : PmpMachine) :
    ((close_access_to_confidential_memory s).pmpcfg0 >>> 32) &&& PMP_PERMISSION_RWX_MASK = 0 ∧
    ((close_access_to_confidential_memory s).pmpcfg0 >>> 40) &&& PMP_PERMISSION_RWX_MASK = 0 ∧
    (∀ i, i < 64 → i ≠ 32 → i ≠ 33 → i ≠ 34 → i ≠ 40 → i ≠ 41 → i ≠ 42 →
      (close_access_to_confidential_memory s).pmpcfg0.testBit i = s.pmpcfg0.testBit i) ∧
    (close_access_to_confidential_memory s).fences =
      s.fences ++ [Fence.sfenceVma, Fence.hfenceGvma] := by
  have hlow : ∀ b : Nat, b = 32 ∨ b = 40 →
      ((close_access_to_confidential_memory s).pmpcfg0 >>> b) &&& PMP_PERMISSION_RWX_MASK = 0 := by
    intro b hb
    apply Nat.eq_of_testBit_eq
    intro i
    rw [Nat.testBit_and, Nat.testBit_shiftRight, Nat.zero_testBit,
      show PMP_PERMISSION_RWX_MASK = 2 ^ 3 - 1 from rfl, Nat.testBit_two_pow_sub_one]
    rcases Nat.lt_or_ge i 3 with hi | hi
    · have hz : (close_access_to_confidential_memory s).pmpcfg0.testBit (b + i) = false := by
        rw [Bool.eq_false_iff, Ne, close_access_pmpcfg0_testBit]
        intro hc
        rcases hb with rfl | rfl <;> omega
      simp [hz]
    · simp only [decide_eq_false (by omega : ¬ i < 3), Bool.and_false]
  refine ⟨hlow 32 (Or.inl rfl), hlow 40 (Or.inr rfl), ?_, rfl⟩
  intro i h64 h1 h2 h3 h4 h5 h6
  cases hb : s.pmpcfg0.testBit i
  · rw [Bool.eq_false_iff, Ne, close_access_pmpcfg0_testBit]
    intro hc
    simp [hb] at hc
  · rw [close_access_pmpcfg0_testBit]
    exact ⟨hb, by omega, by omega, h64⟩

/-- Witness for C2: the amended theorem applied at a concrete `pmpcfg0` value
(entries 4 and 5 fully set, plus bits 0 and 63): the TOR bit of entry 5
(bit 43) is preserved by the close operation. -/
theorem close_access_clears_rwx_witness :
    (close_access_to_confidential_memory
        ⟨(0xF <<< 40) ||| (0x7 <<< 32) ||| (1 <<< 63) ||| 1, []⟩).pmpcfg0.testBit 43 =
      (((0xF <<< 40) ||| (0x7 <<< 32) ||| (1 <<< 63) ||| 1 : Nat)).testBit 43 :=
  (close_access_clears_rwx_and_fences
      ⟨(0xF <<< 40) ||| (0x7 <<< 32) ||| (1 <<< 63) ||| 1, []⟩).2.2.1 43
    (by decide) (by decide) (by decide) (by decide) (by decide) (by decide) (by decide)

/-- Modelled from the spec: `riscv_decode::instruction_length` (external
crate), the standard RISC-V instruction-length decoding from the low 16 bits
of an instruction. -/
def riscv_decode_instruction_length (i : Nat) : Nat :=
  if i &&& 0b11 ≠ 0b11 then 2
  else if i &&& 0b11100 ≠ 0b11100 then 4
  else if i &&& 0b111111 = 0b011111 then 6
  else if i &&& 0b1111111 = 0b0111111 then 8
  else 10 + 2 * ((i >>> 12) &&& 0b111)

/-- `is_bit_enabled` (`core/architecture`, outside `src`; modelled by its
call-site meaning): whether bit `bit` of `value` is set. -/
def is_bit_enabled (value bit : Nat) : Bool := value &&& (1 <<< bit) != 0

/-- The instruction-length computation of `MmioLoadRequest::handle`
(`mmio_load_request.rs` lines 30-38): the handler asserts that bit 0 of
`mtinst` is set (`none` models the panic), forms the (pseudo-)instruction
`mtinst | 0x3`, and takes `riscv_decode::instruction_length` of its low 16
bits when bit 1 of `mtinst` is set, else length 2. -/
def MmioLoadRequest.handled_instruction_length (req : MmioLoadRequest) : Option Nat :=
  if req.mtinst &&& 0x1 > 0 then
    some (if is_bit_enabled req.mtinst 1
      then riscv_decode_instruction_length ((req.mtinst ||| 0x3) % 2 ^ 16)
      else 2)
  else none

/-- The instruction-length rule exactly as the specification words it (for
the refinement comparison of claim C4): "if `mtinst.bit0=0` it is not a full
instruction so use length 2, else `riscv_decode::instruction_length`" of
`mtinst | 0x3`. -/
def spec_mmio_instruction_length (mtinst : Nat) : Nat :=
  if mtinst &&& 0x1 = 0 then 2
  else riscv_decode_instruction_length ((mtinst ||| 0x3) % 2 ^ 16)

/-- Counterexample for C4: for `mtinst = 0x6001` (bit 0 set, bit 1 clear —
a transformed compressed instruction) the code computes length 2, while the
claim's rule ("if bit 0 of mtinst is 0 the length is 2; otherwise
`instruction_length (mtinst | 0x3)`") demands 4. -/
theorem mtinst_bit0_rule_counterexample :
    (MmioLoadRequest.mk 5 0 0 0x6001).handled_instruction_length = some 2 ∧
    spec_mmio_instruction_length 0x6001 = 4 ∧
    (MmioLoadRequest.mk 5 0 0 0x6001).handled_instruction_length ≠
      some (spec_mmio_instruction_length 0x6001) := by
  decide

/-- Bit `b` of `x` is set exactly when `x &&& (1 <<< b)` is nonzero. -/
theorem is_bit_enabled_eq_testBit (x b : Nat) : is_bit_enabled x b = x.testBit b := by
  simp only [is_bit_enabled, Nat.one_shiftLeft, bne_iff_ne, Ne, Nat.and_two_pow]
  cases hb : x.testBit b <;> simp [hb]

/-- C4 (amended): when handling an MMIO load fault the handler asserts that
bit 0 of `mtinst` is set (panicking otherwise); the length of the faulting
instruction is 2 when bit 1 of `mtinst` is 0, and otherwise it is
`riscv_decode::instruction_length` applied to the low 16 bits of the
(pseudo-)instruction `mtinst | 0x3`. -/
theorem mmio_load_instruction_length_from_mtinst_bit1 (mc mv mv2 mtinst : Nat) :
    ((MmioLoadRequest.mk mc mv mv2 mtinst).handled_instruction_length = none ↔
      mtinst.testBit 0 = false) ∧
    (mtinst.testBit 0 = true → mtinst.testBit 1 = false →
      (MmioLoadRequest.mk mc mv mv2 mtinst).handled_instruction_length = some 2) ∧
    (mtinst.testBit 0 = true → mtinst.testBit 1 = true →
      (MmioLoadRequest.mk mc mv mv2 mtinst).handled_instruction_length =
        some (riscv_decode_instruction_length ((mtinst ||| 0x3) % 2 ^ 16))) := by
  have h0 : (0 < mtinst &&& 0x1) ↔ mtinst.testBit 0 = true := by
    rw [Nat.and_one_is_mod, Nat.testBit_zero]
    simp only [decide_eq_true_eq]
    omega
  refine ⟨?_, ?_, ?_⟩
  · rcases Decidable.em (0 < mtinst &&& 0x1) with hp | hp
    · simp only [MmioLoadRequest.handled_instruction_length, if_pos hp]
      constructor
      · intro hc
        exact absurd hc (by simp)
      · intro hb
        exact absurd (h0.mp hp) (by simp [hb])
    · have hfalse : mtinst.testBit 0 = false := by
        cases hb : mtinst.testBit 0
        · rfl
        · exact absurd (h0.mpr hb) hp
      simp only [MmioLoadRequest.handled_instruction_length, if_neg hp, hfalse]
  · intro hb0 hb1
    simp only [MmioLoadRequest.handled_instruction_length, if_pos (h0.mpr hb0),
      is_bit_enabled_eq_testBit, hb1]
    rfl
  · intro hb0 hb1
    simp only [MmioLoadRequest.handled_instruction_length, if_pos (h0.mpr hb0),
      is_bit_enabled_eq_testBit, hb1]
    rfl

/-- Witness for C4's amended theorem: at `mtinst = 0x2A303` (bit 0 and bit 1
set: an uncompressed load instruction transformed into `mtinst`), the length
is `instruction_length (0x2A303 ||| 3) = 4`. -/
theorem mmio_load_instruction_length_witness :
    (MmioLoadRequest.mk 5 0x100 0x40 0x2A303).handled_instruction_length =
      some (riscv_decode_instruction_length ((0x2A303 ||| 0x3) % 2 ^ 16)) :=
  (mmio_load_instruction_length_from_mtinst_bit1 5 0x100 0x40 0x2A303).2.2
    (by decide) (by decide)

/-- Modelled from the spec: the RISC-V `WFI_INSTRUCTION` encoding
(`0x10500073`; the constant lives outside `src`). -/
def WFI_INSTRUCTION : Nat := 0x10500073

/-- The body of `VirtualInstruction`
(`handlers/virtual_instructions/mod.rs`): the trapped instruction and its
length. -/
structure VirtualInstruction where
  instruction : Nat
  instruction_length : Nat
deriving DecidableEq, Repr

/-- `VirtualInstruction::from_confidential_hart` (`mod.rs` lines 15-23):
reads the virtual instruction from `mtval` and decodes its length from the
low 16 bits. -/
def VirtualInstruction.from_confidential_hart (mtval : Nat) : VirtualInstruction :=
  { instruction := mtval, instruction_length := riscv_decode_instruction_length (mtval % 2 ^ 16) }

/-- `MmioAccessFault` handler payload (constructed in
`mmio_load_request.rs` lines 45-46 from the trap cause, `mtval` and the
instruction length; the handler's own file is outside `src`). -/
structure MmioAccessFault where
  cause : Nat
  mtval : Nat
  instruction_length : Nat
deriving DecidableEq, Repr

/-- `ApplyToConfidentialHart` (`confidential_flow/apply_to_confidential_vm.rs`
lines 9-13): the transformations that mutate the current confidential hart
before resuming it. -/
inductive ApplyToConfidentialHart where
  | mmioAccessFault (f : MmioAccessFault)
  | sbiResponse (r : SbiResponse)
  | virtualInstruction (v : VirtualInstruction)
deriving DecidableEq, Repr

/-- The panic outcomes of the embedded handlers. -/
inductive MonitorPanic where
  | notSupportedVirtualInstruction (instruction : Nat)
deriving DecidableEq, Repr

/-- `VirtualInstruction::handle` (`mod.rs` lines 25-34): a WFI instruction
produces the `VirtualInstruction` transformation; any other instruction makes
the monitor panic (the `panic!` in the `else` arm, modelled as the error
outcome). -/
def VirtualInstruction.handle (v : VirtualInstruction) :
    Except MonitorPanic ApplyToConfidentialHart :=
  if v.instruction = WFI_INSTRUCTION then
    Except.ok (ApplyToConfidentialHart.virtualInstruction v)
  else
    Except.error (MonitorPanic.notSupportedVirtualInstruction v.instruction)

/-- `VirtualInstruction::apply_to_confidential_hart` (`mod.rs` lines 36-41):
advance `mepc` by the instruction length. -/
def VirtualInstruction.apply_to_confidential_hart (v : VirtualInstruction)
    (h : ConfidentialHart) : ConfidentialHart :=
  { h with
    csrs := Function.update h.csrs CsrName.mepc
      (h.csrs CsrName.mepc + v.instruction_length) }

/-- C9 (code bug): for a virtual-instruction trap whose trapped instruction
is not WFI — here `sret` (`0x10200073`), which does not decode as a virtual
CSR access — the monitor panics instead of injecting an illegal-instruction
exception into the guest as the specification requires; only a WFI trap
yields the `VirtualInstruction` transformation, which advances `mepc` by the
4-byte instruction length. -/
theorem virtual_instruction_non_wfi_panic_evidence :
    (VirtualInstruction.from_confidential_hart 0x10200073).handle =
      Except.error (MonitorPanic.notSupportedVirtualInstruction 0x10200073) ∧
    (VirtualInstruction.from_confidential_hart WFI_INSTRUCTION).handle =
      Except.ok (ApplyToConfidentialHart.virtualInstruction
        { instruction := WFI_INSTRUCTION, instruction_length := 4 }) ∧
    ((VirtualInstruction.from_confidential_hart WFI_INSTRUCTION).apply_to_confidential_hart
        { gprs := fun _ => 0, csrs := fun _ => 0x8000 }).csrs CsrName.mepc = 0x8000 + 4 := by
  refine ⟨rfl, rfl, rfl⟩

/-- `InvalidCall` (`handlers/sbi/invalid_call.rs` lines 11-22): the unknown
SBI call's extension id (`a7`) and function id (`a6`). -/
structure InvalidCall where
  extension_id : Nat
  function_id : Nat
deriving DecidableEq, Repr

/-- `InvalidCall::from_confidential_hart` (`invalid_call.rs` lines 17-22). -/
def InvalidCall.from_confidential_hart (h : ConfidentialHart) : InvalidCall :=
  { extension_id := h.gprs GeneralPurposeRegister.a7,
    function_id := h.gprs GeneralPurposeRegister.a6 }

/-- `InvalidCall::handle` (`invalid_call.rs` lines 24-32): produce an
`ApplyToConfidentialHart::SbiResponse` carrying
`SbiResponse::error(InvalidCall(extension_id, function_id))`. -/
def InvalidCall.handle (c : InvalidCall) : ApplyToConfidentialHart :=
  ApplyToConfidentialHart.sbiResponse
    (SbiResponse.error (AceError.invalidCall c.extension_id c.function_id))

/-- C8: an SBI call from a confidential hart matching no supported extension
is handled by applying an `SbiResponse` to the same confidential hart (an
`ApplyToConfidentialHart` transformation — nothing is declassified to the
hypervisor) whose `a0` is the two's-complement encoding of the SBI
NotSupported code (-2), whose `a1` is 0, and which advances `mepc` by the
4-byte ecall length while leaving every other GPR and CSR unchanged. -/
theorem invalid_sbi_call_not_supported_response (h : ConfidentialHart) :
    (InvalidCall.from_confidential_hart h).handle =
      ApplyToConfidentialHart.sbiResponse
        (SbiResponse.error (AceError.invalidCall
          (h.gprs GeneralPurposeRegister.a7) (h.gprs GeneralPurposeRegister.a6))) ∧
    ((SbiResponse.error (AceError.invalidCall
        (h.gprs GeneralPurposeRegister.a7) (h.gprs GeneralPurposeRegister.a6))).a0 =
      2 ^ 64 - 2 ∧
     (SbiResponse.error (AceError.invalidCall
        (h.gprs GeneralPurposeRegister.a7) (h.gprs GeneralPurposeRegister.a6))).a1 = 0) ∧
    (((SbiResponse.error (AceError.invalidCall
        (h.gprs GeneralPurposeRegister.a7) (h.gprs GeneralPurposeRegister.a6))).apply_to_confidential_hart
          h).gprs GeneralPurposeRegister.a0 = 2 ^ 64 - 2 ∧
     ((SbiResponse.error (AceError.invalidCall
        (h.gprs GeneralPurposeRegister.a7) (h.gprs GeneralPurposeRegister.a6))).apply_to_confidential_hart
          h).gprs GeneralPurposeRegister.a1 = 0 ∧
     ((SbiResponse.error (AceError.invalidCall
        (h.gprs GeneralPurposeRegister.a7) (h.gprs GeneralPurposeRegister.a6))).apply_to_confidential_hart
          h).csrs CsrName.mepc = h.csrs CsrName.mepc + ECALL_INSTRUCTION_LENGTH) ∧
    (∀ r : GeneralPurposeRegister, r ≠ GeneralPurposeRegister.a0 →
      r ≠ GeneralPurposeRegister.a1 →
      ((SbiResponse.error (AceError.invalidCall
        (h.gprs GeneralPurposeRegister.a7) (h.gprs GeneralPurposeRegister.a6))).apply_to_confidential_hart
          h).gprs r = h.gprs r) ∧
    (∀ c : CsrName, c ≠ CsrName.mepc →
      ((SbiResponse.error (AceError.invalidCall
        (h.gprs GeneralPurposeRegister.a7) (h.gprs GeneralPurposeRegister.a6))).apply_to_confidential_hart
          h).csrs c = h.csrs c) := by
  refine ⟨rfl, ⟨rfl, rfl⟩, ⟨rfl, rfl, rfl⟩, ?_, ?_⟩
  · intro r hr0 hr1
    simp [SbiResponse.apply_to_confidential_hart, Function.update, hr0, hr1]
  · intro c hc
    simp [SbiResponse.apply_to_confidential_hart, Function.update, hc]

/-- Witness for C8: scenario S1 of the spec — the guest sets `a7 = 0xdead`,
`a6 = 0xbeef` and calls; afterwards `a0 = -2` (as a 64-bit word), `a1 = 0`,
`mepc` advanced by 4, and `a2` (for example) untouched. -/
theorem invalid_sbi_call_witness :
    ((SbiResponse.error (AceError.invalidCall 0xdead 0xbeef)).apply_to_confidential_hart
        { gprs := fun r => if r = GeneralPurposeRegister.a7 then 0xdead
            else if r = GeneralPurposeRegister.a6 then 0xbeef else 3,
          csrs := fun _ => 0x1000 }).gprs GeneralPurposeRegister.a2 = 3 := by
  have h := invalid_sbi_call_not_supported_response
    { gprs := fun r => if r = GeneralPurposeRegister.a7 then 0xdead
        else if r = GeneralPurposeRegister.a6 then 0xbeef else 3,
      csrs := fun _ => 0x1000 }
  have := h.2.2.2.1 GeneralPurposeRegister.a2 (by decide) (by decide)
  simpa using this

/-- Modelled from the spec: `PageSize` (`core/architecture`, outside `src`) —
the supported page sizes are 4 KiB, 2 MiB and 1 GiB; the derived order is the
variant order. -/
inductive PageSize where
  | size4KiB
  | size2MiB
  | size1GiB
deriving DecidableEq, Repr

/-- `PageSize::in_bytes`. -/
def PageSize.in_bytes : PageSize → Nat
  | .size4KiB => 4096
  | .size2MiB => 2 * 1024 * 1024
  | .size1GiB => 1024 * 1024 * 1024

/-- `PageSize::smaller`: the next smaller supported page size. -/
def PageSize.smaller : PageSize → Option PageSize
  | .size4KiB => none
  | .size2MiB => some .size4KiB
  | .size1GiB => some .size2MiB

/-- `PageSize::larger`: the next larger supported page size. -/
def PageSize.larger : PageSize → Option PageSize
  | .size4KiB => some .size2MiB
  | .size2MiB => some .size1GiB
  | .size1GiB => none

/-- `PageSize::smallest`. -/
def PageSize.smallest : PageSize := .size4KiB

/-- `PageSize::largest`. -/
def PageSize.largest : PageSize := .size1GiB

/-- The position of a page size in the variant order (Rust's derived `Ord`). -/
def PageSize.rank : PageSize → Nat
  | .size4KiB => 0
  | .size2MiB => 1
  | .size1GiB => 2

/-- `PageSize::number_of_smaller_pages`: how many pages of the next smaller
size make up one page of this size (callers only invoke it when a smaller
size exists; we return 0 otherwise). -/
def PageSize.number_of_smaller_pages (s : PageSize) : Nat :=
  match s.smaller with
  | some t => s.in_bytes / t.in_bytes
  | none => 0

/-- Modelled from the spec: `ptr_align` from `pointers_utility` — align a
pointer up to `align` bytes, failing when the aligned address passes the end
of the owned region. -/
def ptr_align (p align bound : Nat) : Option Nat :=
  if ((p + align - 1) / align) * align ≤ bound then
    some (((p + align - 1) / align) * align)
  else none

/-- Modelled from the spec: `ptr_byte_add_mut` from `pointers_utility` —
offset a pointer, failing when the result passes the end of the owned
region. -/
def ptr_byte_add_mut (p offset bound : Nat) : Option Nat :=
  if p + offset ≤ bound then some (p + offset) else none

/-- `MemoryLayout` (`core/memory_layout/mod.rs` lines 28-33): the four region
boundaries fixed at boot. -/
structure MemoryLayout where
  non_confidential_memory_start : Nat
  non_confidential_memory_end : Nat
  confidential_memory_start : Nat
  confidential_memory_end : Nat
deriving DecidableEq, Repr

/-- Outcome of `MemoryLayout::init`: an assertion failure (panic), an error,
or success carrying the returned aligned start, trimmed end, and the global
`MEMORY_LAYOUT` singleton state after the call. -/
inductive MemoryLayoutInitResult where
  | panic
  | err (e : AceError)
  | ok (confidential_memory_start confidential_memory_end : Nat)
      (layout : Option MemoryLayout)
deriving DecidableEq, Repr

/-- `MemoryLayout::init` (`memory_layout/mod.rs` lines 54-99) with the global
`MEMORY_LAYOUT : Once<MemoryLayout>` passed as explicit state `st`.  The three
`assert!`s yield `panic`; `ptr_align` failure maps to `NotEnoughMemory`; the
`usize::try_from` of the byte offset cannot fail because `ptr_align` keeps the
aligned start at or below `ce`.  `call_once` keeps an already-stored value.
(The error conversion on the unreachable `ptr_byte_add_mut` failure branch is
immaterial.) -/
def MemoryLayout.init (st : Option MemoryLayout) (ncs nce cs ce : Nat) :
    MemoryLayoutInitResult :=
  if ¬ ncs < nce then .panic
  else if ¬ nce ≤ cs then .panic
  else if ¬ cs < ce then .panic
  else
    match ptr_align cs PageSize.smallest.in_bytes ce with
    | none => .err AceError.notEnoughMemory
    | some cs0 =>
      let memory_size := ce - cs0
      let number_of_pages := memory_size / PageSize.smallest.in_bytes
      let memory_size_in_bytes := number_of_pages * PageSize.smallest.in_bytes
      match (if memory_size > memory_size_in_bytes
             then ptr_byte_add_mut cs0 memory_size_in_bytes ce
             else some ce) with
      | none => .err AceError.addressNotInConfidentialMemory
      | some ce0 =>
        .ok cs0 ce0
          (match st with
           | none => some ⟨ncs, nce, cs0, ce0⟩
           | some l => some l)

/-- Counterexample for C3: a first `init` call with valid bounds succeeds,
and a second call with the same valid bounds does not fail with
`Reinitialization` — it succeeds again (the stored singleton merely keeps its
first value; `MemoryLayout::init`, unlike `PageAllocator::initialize` and
`InterruptController::initialize`, performs no `is_completed` check). -/
theorem memory_layout_reinit_counterexample :
    MemoryLayout.init none 4096 8192 8196 16384 =
      MemoryLayoutInitResult.ok 12288 16384 (some ⟨4096, 8192, 12288, 16384⟩) ∧
    MemoryLayout.init (some ⟨4096, 8192, 12288, 16384⟩) 4096 8192 8196 16384 =
      MemoryLayoutInitResult.ok 12288 16384 (some ⟨4096, 8192, 12288, 16384⟩) ∧
    MemoryLayout.init (some ⟨4096, 8192, 12288, 16384⟩) 4096 8192 8196 16384 ≠
      MemoryLayoutInitResult.err AceError.reinitialization := by
  decide

/-- C3 (amended): a first `MemoryLayout::init` call with valid region bounds
succeeds, returning the aligned start and trimmed end and storing the layout;
`init` never returns the `Reinitialization` error (the call-once requirement
is a safety precondition on the caller, not a checked condition), and a
subsequent call leaves the originally stored layout unchanged (`call_once`
keeps the first value). -/
theorem memory_layout_init_first_call_and_no_reinit_check :
    (∀ ncs nce cs ce cs0 : Nat, ncs < nce → nce ≤ cs → cs < ce →
      ptr_align cs PageSize.smallest.in_bytes ce = some cs0 →
      ∃ ce0, MemoryLayout.init none ncs nce cs ce =
        MemoryLayoutInitResult.ok cs0 ce0 (some ⟨ncs, nce, cs0, ce0⟩)) ∧
    (∀ st ncs nce cs ce, MemoryLayout.init st ncs nce cs ce ≠
      MemoryLayoutInitResult.err AceError.reinitialization) ∧
    (∀ l ncs nce cs ce cs0 ce0 st',
      MemoryLayout.init (some l) ncs nce cs ce =
        MemoryLayoutInitResult.ok cs0 ce0 st' → st' = some l) := by
  refine ⟨?_, ?_, ?_⟩
  · intro ncs nce cs ce cs0 h1 h2 h3 halign
    have hcs0 : cs0 ≤ ce := by
      simp only [ptr_align] at halign
      split at halign
      · exact (Option.some_inj.mp halign) ▸ (by assumption)
      · exact absurd halign (by simp)
    simp only [MemoryLayout.init, h1, h2, h3, not_true, not_false_iff, if_false, if_true,
      not_lt, not_le, halign]
    rcases Decidable.em ((ce - cs0) >
        ((ce - cs0) / PageSize.smallest.in_bytes) * PageSize.smallest.in_bytes) with hgt | hgt
    · refine ⟨cs0 + ((ce - cs0) / PageSize.smallest.in_bytes) * PageSize.smallest.in_bytes, ?_⟩
      have hle : cs0 + ((ce - cs0) / PageSize.smallest.in_bytes) * PageSize.smallest.in_bytes
          ≤ ce := by
        have := Nat.div_mul_le_self (ce - cs0) PageSize.smallest.in_bytes
        omega
      simp [hgt, ptr_byte_add_mut, hle]
    · refine ⟨ce, ?_⟩
      simp [hgt]
  · intro st ncs nce cs ce
    simp only [MemoryLayout.init]
    split
    · simp
    · split
      · simp
      · split
        · simp
        · split
          · simp
          · split
            · simp
            · simp
  · intro l ncs nce cs ce cs0 ce0 st' h
    simp only [MemoryLayout.init] at h
    repeat' split at h
    all_goals first
      | (rw [MemoryLayoutInitResult.ok.injEq] at h; exact h.2.2.symm)
      | exact absurd h (by simp)

/-- Witness for C3's amended theorem at the concrete bounds of the
counterexample: the first call succeeds, no call ever reports
`Reinitialization`, and a repeated call preserves the stored layout. -/
theorem memory_layout_init_witness :
    (∃ ce0, MemoryLayout.init none 4096 8192 8196 16384 =
      MemoryLayoutInitResult.ok 12288 ce0 (some ⟨4096, 8192, 12288, ce0⟩)) ∧
    MemoryLayout.init (some ⟨4096, 8192, 12288, 16384⟩) 4096 8192 8196 16384 ≠
      MemoryLayoutInitResult.err AceError.reinitialization :=
  ⟨memory_layout_init_first_call_and_no_reinit_check.1 4096 8192 8196 16384 12288
      (by decide) (by decide) (by decide) (by decide),
   memory_layout_init_first_call_and_no_reinit_check.2.1
      (some ⟨4096, 8192, 12288, 16384⟩) 4096 8192 8196 16384⟩

/-- C7: a successful first `MemoryLayout::init` aligns the confidential start
up to 4 KiB and trims the confidential end down to a whole number of 4 KiB
pages: the returned pair satisfies `start % 4096 = 0` and
`(end - start) % 4096 = 0`, and the stored layout holds exactly that pair. -/
theorem memory_layout_init_returns_4KiB_aligned_region
    (ncs nce cs ce cs0 ce0 : Nat) (st' : Option MemoryLayout)
    (h : MemoryLayout.init none ncs nce cs ce = MemoryLayoutInitResult.ok cs0 ce0 st') :
    cs0 % 4096 = 0 ∧ (ce0 - cs0) % 4096 = 0 ∧
    st' = some ⟨ncs, nce, cs0, ce0⟩ := by
  have hX : PageSize.smallest.in_bytes = 4096 := rfl
  simp only [MemoryLayout.init] at h
  split at h
  · exact absurd h (by simp)
  split at h
  · exact absurd h (by simp)
  split at h
  · exact absurd h (by simp)
  split at h
  · exact absurd h (by simp)
  split at h
  · exact absurd h (by simp)
  rename_i hg1 hg2 hg3 x1 a halign x2 b hif
  rw [MemoryLayoutInitResult.ok.injEq] at h
  obtain ⟨ha, hb, hst⟩ := h
  rw [← ha, ← hb]
  refine ⟨?_, ?_, hst.symm⟩
  · simp only [ptr_align, hX] at halign
    split at halign
    · have haval : (cs + 4096 - 1) / 4096 * 4096 = a := Option.some_inj.mp halign
      omega
    · exact absurd halign (by simp)
  · rw [hX] at hif
    split at hif
    · simp only [ptr_byte_add_mut] at hif
      split at hif
      · have hval : a + (ce - a) / 4096 * 4096 = b := Option.some_inj.mp hif
        omega
      · exact absurd hif (by simp)
    · have hval : ce = b := Option.some_inj.mp hif
      rename_i hngt
      omega

/-- Witness for C7 at the concrete bounds `(4096, 8192, 8196, 16384)`: the
first call returns start 12288 and end 16384, which are 4 KiB aligned. -/
theorem memory_layout_init_alignment_witness :
    (12288 : Nat) % 4096 = 0 ∧ ((16384 : Nat) - 12288) % 4096 = 0 ∧
    (some ⟨4096, 8192, 12288, 16384⟩ : Option MemoryLayout) =
      some ⟨4096, 8192, 12288, 16384⟩ :=
  memory_layout_init_returns_4KiB_aligned_region 4096 8192 8196 16384 12288 16384
    (some ⟨4096, 8192, 12288, 16384⟩) (by decide)

/-- Modelled from the spec: the CLINT device — "msip[hart] at offset
hart * 4; writing 1 raises MSI on that hart".  `number_of_harts` bounds the
harts the platform has; `msip` is the per-hart software-interrupt register. -/
structure Clint where
  number_of_harts : Nat
  msip : Nat → Nat
deriving Inhabited

/-- Modelled from the spec: `clint.write_msip(hart, value)` — store the value
in the target hart's msip register; the `Result` is an error for a hart the
platform does not have. -/
def Clint.write_msip (c : Clint) (hart value : Nat) : Option Clint :=
  if hart < c.number_of_harts then
    some { c with msip := Function.update c.msip hart value }
  else none

/-- `sbi_ipi_send_smode` (`interrupt_controller/mod.rs` lines 23-30): write
`hmask as u32` to the msip register of hart `hbase` through the platform
CLINT, unwrap the result (`none` models the panic of `.unwrap()`), and return
code 0. -/
def sbi_ipi_send_smode (clint : Clint) (hmask hbase : Nat) : Option (Nat × Clint) :=
  match clint.write_msip hbase (hmask % 2 ^ 32) with
  | none => none
  | some c => some (0, c)

/-- The dispatch of `InterruptController::send_ipi` on the return code of
`sbi_ipi_send_smode` (`mod.rs` lines 62-65): code 0 maps to `Ok(())`, any
other code to `Err(InterruptSendingError(code))`. -/
def send_ipi_dispatch (code : Nat) : Except AceError Unit :=
  if code = 0 then Except.ok () else Except.error (AceError.interruptSendingError code)

/-- `InterruptController::send_ipi` (`mod.rs` lines 54-66), with the hart's
`mhartid` CSR and the CLINT state passed explicitly: a self-IPI returns
`Ok(())` immediately without touching the CLINT; otherwise the IPI is sent
with `hart_mask = 1` and `hart_mask_base = target_hart_id` and the returned
code is dispatched.  `none` models the panic inside `sbi_ipi_send_smode`. -/
def send_ipi (mhartid : Nat) (clint : Clint) (target_hart_id : Nat) :
    Option (Except AceError Unit × Clint) :=
  if target_hart_id = mhartid then some (Except.ok (), clint)
  else
    match sbi_ipi_send_smode clint 1 target_hart_id with
    | none => none
    | some (code, c) => some (send_ipi_dispatch code, c)

/-- C10: `send_ipi` to the calling hart's own `mhartid` returns `Ok(())`
without any CLINT msip write (the CLINT state is unchanged); a write of 1 to
the target hart's msip register happens exactly when the target differs from
the caller (and the write panics for a hart the platform does not have); and
a non-zero return code of the CLINT-backed IPI primitive is dispatched to
`Err(InterruptSendingError(code))`. -/
theorem send_ipi_self_skip_and_msip_write (mhartid : Nat) (clint : Clint) (target : Nat) :
    (target = mhartid →
      send_ipi mhartid clint target = some (Except.ok (), clint)) ∧
    (target ≠ mhartid → target < clint.number_of_harts →
      send_ipi mhartid clint target =
        some (Except.ok (), { clint with msip := Function.update clint.msip target 1 })) ∧
    (target ≠ mhartid → ¬ target < clint.number_of_harts →
      send_ipi mhartid clint target = none) ∧
    (∀ code, code ≠ 0 →
      send_ipi_dispatch code = Except.error (AceError.interruptSendingError code)) := by
  refine ⟨?_, ?_, ?_, ?_⟩
  · intro he
    simp [send_ipi, he]
  · intro hne hlt
    simp [send_ipi, hne, sbi_ipi_send_smode, Clint.write_msip, hlt, send_ipi_dispatch]
  · intro hne hge
    simp [send_ipi, hne, sbi_ipi_send_smode, Clint.write_msip, hge]
  · intro code hc
    simp [send_ipi_dispatch, hc]

/-- Witness for C10: on a 4-hart platform, hart 0 sending to itself leaves
the CLINT untouched, sending to hart 1 writes 1 into hart 1's msip, and a
hypothetical non-zero return code 7 maps to `InterruptSendingError(7)`. -/
theorem send_ipi_witness :
    send_ipi 0 ⟨4, fun _ => 0⟩ 0 = some (Except.ok (), ⟨4, fun _ => 0⟩) ∧
    send_ipi 0 ⟨4, fun _ => 0⟩ 1 =
      some (Except.ok (), ⟨4, Function.update (fun _ => 0) 1 1⟩) ∧
    send_ipi_dispatch 7 = Except.error (AceError.interruptSendingError 7) :=
  ⟨(send_ipi_self_skip_and_msip_write 0 ⟨4, fun _ => 0⟩ 0).1 rfl,
   (send_ipi_self_skip_and_msip_write 0 ⟨4, fun _ => 0⟩ 1).2.1 (by decide) (by decide),
   (send_ipi_self_skip_and_msip_write 0 ⟨4, fun _ => 0⟩ 1).2.2.2 7 (by decide)⟩

/-- `Page` (`core/page_allocator/page.rs`, outside `src`; modelled from the
spec): a token owning the size-aligned physical region
`[start_address, start_address + size)`. -/
structure Page where
  start_address : Nat
  size : PageSize
deriving DecidableEq, Repr

/-- Modelled from the spec: `Page::divide` — split a token into
`k = this_size / smaller_size` tokens of the next smaller size,
"deterministically addressed: child i covers `base + i * smaller_size`". -/
def Page.divide (p : Page) : List Page :=
  match p.size.smaller with
  | none => []
  | some s =>
    (List.range (p.size.in_bytes / s.in_bytes)).map
      (fun i => { start_address := p.start_address + i * s.in_bytes, size := s })

/-- Modelled from the spec: `Page::merge` — fuse the ordered sibling tokens
back into one token of the parent's size starting at the first sibling's
address. -/
def Page.merge (pages : List Page) (new_size : PageSize) : Page :=
  { start_address := ((pages.head?).map Page.start_address).getD 0, size := new_size }

/-- The rank of an `Option PageSize` under Rust's derived order on
`Option` (`None` below every `Some`), used for the allocator's
`max_allocable_page_size` comparisons. -/
def optRank : Option PageSize → Nat
  | none => 0
  | some s => s.rank + 1

/-- `PageStorageTreeNode` (`page_allocator/allocator.rs` lines 221-231): an
optional page token of this node's size, the cached max allocable page size
of the subtree, and the lazily created children. -/
inductive PageStorageTreeNode where
  | mk (page_token : Option Page) (max_allocable_page_size : Option PageSize)
      (children : List PageStorageTreeNode)

/-- The `page_token` field. -/
def PageStorageTreeNode.page_token : PageStorageTreeNode → Option Page
  | .mk t _ _ => t

/-- The `max_allocable_page_size` field. -/
def PageStorageTreeNode.max_allocable_page_size : PageStorageTreeNode → Option PageSize
  | .mk _ m _ => m

/-- The `children` field. -/
def PageStorageTreeNode.children : PageStorageTreeNode → List PageStorageTreeNode
  | .mk _ _ c => c

/-- `PageStorageTreeNode::store_page_token_in_this_node` (`allocator.rs`
lines 362-366): cache the token's size as the max allocable size and store
the token; the `assert!(self.page_token.is_none())` is the `none` case. -/
def PageStorageTreeNode.store_page_token_in_this_node
    (node : PageStorageTreeNode) (page_token : Page) : Option PageStorageTreeNode :=
  if node.page_token.isSome then none
  else some (.mk (some page_token) (some page_token.size) node.children)

/-- `PageStorageTreeNode::acquire_page_token_from_this_node` (`allocator.rs`
lines 369-373): take the token out and clear the cached max allocable size;
the `assert!(self.page_token.is_some())` is the `none` case. -/
def PageStorageTreeNode.acquire_page_token_from_this_node
    (node : PageStorageTreeNode) : Option (Page × PageStorageTreeNode) :=
  match node.page_token with
  | none => none
  | some tok => some (tok, .mk none none node.children)

/-- `PageStorageTreeNode::initialize_children_if_needed` (`allocator.rs`
lines 353-359): lazily create `number_of_smaller_pages` empty children. -/
def PageStorageTreeNode.init_children_if_needed
    (node : PageStorageTreeNode) (this_node_page_size : PageSize) : PageStorageTreeNode :=
  if node.children.isEmpty then
    .mk node.page_token node.max_allocable_page_size
      (List.replicate this_node_page_size.number_of_smaller_pages (.mk none none []))
  else node

/-- `PageStorageTreeNode::calculate_child_index` (`allocator.rs` lines
412-423): the child index of a token is
`(token_addr - node_base) / smaller_size`; the two `assert!`s (strictly
smaller token, index within the children) are the `none` cases. -/
def PageStorageTreeNode.calculate_child_index (node : PageStorageTreeNode)
    (this_node_base_address : Nat) (this_node_page_size : PageSize)
    (page_token : Page) : Option Nat :=
  if ¬ page_token.size.rank < this_node_page_size.rank then none
  else
    match this_node_page_size.smaller with
    | none => none
    | some s =>
      if (page_token.start_address - this_node_base_address) / s.in_bytes <
          node.children.length then
        some ((page_token.start_address - this_node_base_address) / s.in_bytes)
      else none

/-- `PageStorageTreeNode::try_to_merge_page_tokens` (`allocator.rs` lines
394-407): when every child holds a token, take them all (in child order),
merge them into one token of this node's size, store it here and cache this
node's size as the max allocable size. -/
def PageStorageTreeNode.try_to_merge_page_tokens (node : PageStorageTreeNode)
    (this_node_page_size : PageSize) : Option PageStorageTreeNode :=
  if node.children.all (fun c => c.page_token.isSome) then
    match (PageStorageTreeNode.mk node.page_token node.max_allocable_page_size
        (node.children.map (fun c => .mk none none c.children))).store_page_token_in_this_node
        (Page.merge (node.children.filterMap (fun c => c.page_token)) this_node_page_size) with
    | none => none
    | some node1 => some (.mk node1.page_token (some this_node_page_size) node1.children)
  else some node

/-- The per-token loop body of `PageStorageTreeNode::divide_page_token`
(`allocator.rs` lines 381-388): place each smaller token in the child at its
calculated index. -/
def PageStorageTreeNode.store_divided_tokens (node : PageStorageTreeNode)
    (this_node_base_address : Nat) (this_node_page_size : PageSize) :
    List Page → Option PageStorageTreeNode
  | [] => some node
  | tok :: rest =>
    match node.calculate_child_index this_node_base_address this_node_page_size tok with
    | none => none
    | some index =>
      match node.children.get? index with
      | none => none
      | some child =>
        match child.store_page_token_in_this_node tok with
        | none => none
        | some child1 =>
          PageStorageTreeNode.store_divided_tokens
            (.mk node.page_token node.max_allocable_page_size (node.children.set index child1))
            this_node_base_address this_node_page_size rest

/-- `PageStorageTreeNode::divide_page_token` (`allocator.rs` lines 376-391):
take this node's token, divide it into the next smaller size, store each
piece in the child at its calculated index, and cache the smaller size as the
max allocable size.  The `assert!`s and `unwrap`s are the `none` cases. -/
def PageStorageTreeNode.divide_page_token (node : PageStorageTreeNode)
    (this_node_base_address : Nat) (this_node_page_size : PageSize) :
    Option PageStorageTreeNode :=
  match node.page_token with
  | none => none
  | some tok =>
    let node0 : PageStorageTreeNode :=
      .mk none node.max_allocable_page_size node.children
    let smaller_pages := tok.divide
    if smaller_pages.length ≠ node0.children.length then none
    else
      match node0.store_divided_tokens this_node_base_address this_node_page_size
          smaller_pages with
      | none => none
      | some node1 =>
        match node1.max_allocable_page_size with
        | none => none
        | some m =>
          match m.smaller with
          | none => none
          | some smaller_size =>
            some (.mk node1.page_token (some smaller_size) node1.children)

/-- The next smaller page size has a strictly smaller rank. -/
theorem PageSize.rank_lt_of_smaller {s t : PageSize} (h : s.smaller = some t) :
    t.rank < s.rank := by
  cases s <;> simp_all [PageSize.smaller, PageSize.rank] <;> subst_vars <;> decide

/-- `PageStorageTreeNode::store_page_token` (`allocator.rs` lines 250-290):
recurse to the node of the token's size, store it there, merge full sibling
sets on the way back, refresh the cached max allocable size, and return it.
`none` models the `assert!`/`unwrap` panics. -/
def PageStorageTreeNode.store_page_token (node : PageStorageTreeNode)
    (this_node_base_address : Nat) (this_node_page_size : PageSize)
    (page_token : Page) : Option (PageStorageTreeNode × PageSize) :=
  if ¬ page_token.size.rank ≤ this_node_page_size.rank then none
  else if this_node_page_size = page_token.size then
    if this_node_base_address ≠ page_token.start_address then none
    else
      match node.store_page_token_in_this_node page_token with
      | none => none
      | some node1 =>
        match node1.max_allocable_page_size with
        | none => none
        | some m => some (node1, m)
  else
    match hs : this_node_page_size.smaller with
    | none => none
    | some child_page_size =>
      let node1 := node.init_children_if_needed this_node_page_size
      match node1.calculate_child_index this_node_base_address this_node_page_size
          page_token with
      | none => none
      | some index =>
        match node1.children.get? index with
        | none => none
        | some child =>
          match child.store_page_token
              (this_node_base_address + index * child_page_size.in_bytes)
              child_page_size page_token with
          | none => none
          | some (child1, allocable_page_size) =>
            match (PageStorageTreeNode.mk node1.page_token node1.max_allocable_page_size
                (node1.children.set index child1)).try_to_merge_page_tokens
                this_node_page_size with
            | none => none
            | some node3 =>
              let node4 := if optRank node3.max_allocable_page_size <
                  optRank (some allocable_page_size) then
                PageStorageTreeNode.mk node3.page_token (some allocable_page_size)
                  node3.children
              else node3
              match node4.max_allocable_page_size with
              | none => none
              | some m => some (node4, m)
termination_by this_node_page_size.rank
decreasing_by
  exact PageSize.rank_lt_of_smaller hs

/-- Outcome of `acquire_page_token`: a panic, an error, or the acquired token
with the updated node. -/
inductive AcquireResult where
  | panic
  | err (e : AceError)
  | ok (page_token : Page) (node : PageStorageTreeNode)

/-- The cached max allocable size refresh of `acquire_page_token`
(`allocator.rs` lines 341-346): the maximum (under the derived `Option`
order) of the children's cached sizes. -/
def max_allocable_of_children (children : List PageStorageTreeNode) : Option PageSize :=
  children.foldl
    (fun acc c => if optRank acc < optRank c.max_allocable_page_size
      then c.max_allocable_page_size else acc) none

/-- `PageStorageTreeNode::acquire_page_token` (`allocator.rs` lines 297-349):
fail with `OutOfPages` unless the subtree advertises the requested size; at
the matching size take the token from this node; otherwise split this node's
token if present and recurse into the first child whose subtree advertises
the requested size.  `panic` models the `assert!`/`unwrap` panics. -/
def PageStorageTreeNode.acquire_page_token (node : PageStorageTreeNode)
    (this_node_base_address : Nat) (this_node_page_size page_size_to_acquire : PageSize) :
    AcquireResult :=
  if ¬ optRank (some page_size_to_acquire) ≤ optRank node.max_allocable_page_size then
    .err AceError.outOfPages
  else if this_node_page_size = page_size_to_acquire then
    match node.acquire_page_token_from_this_node with
    | none => .panic
    | some (tok, node1) =>
      if this_node_base_address ≠ tok.start_address then .panic
      else if this_node_page_size ≠ tok.size then .panic
      else .ok tok node1
  else
    match hs : this_node_page_size.smaller with
    | none => .panic
    | some child_page_size =>
      let node1 := node.init_children_if_needed this_node_page_size
      match (if node1.page_token.isSome then
          node1.divide_page_token this_node_base_address this_node_page_size
        else some node1) with
      | none => .panic
      | some node2 =>
        match node2.children.findIdx? (fun c =>
            optRank (some page_size_to_acquire) ≤ optRank c.max_allocable_page_size) with
        | none => .err AceError.outOfPages
        | some index =>
          match node2.children.get? index with
          | none => .panic
          | some child =>
            match child.acquire_page_token
                (this_node_base_address + index * child_page_size.in_bytes)
                child_page_size page_size_to_acquire with
            | .ok tok child1 =>
              .ok tok (.mk node2.page_token
                (max_allocable_of_children (node2.children.set index child1))
                (node2.children.set index child1))
            | _ => .panic
termination_by this_node_page_size.rank
decreasing_by
  exact PageSize.rank_lt_of_smaller hs

/-- The iteration of `PageAllocator::release_pages` (`allocator.rs` lines
188-203): store each released token in turn, starting at the given node.
`none` models a panic in any single store. -/
def PageStorageTreeNode.store_all (node : PageStorageTreeNode)
    (base_address : Nat) (page_size : PageSize) :
    List Page → Option PageStorageTreeNode
  | [] => some node
  | tok :: rest =>
    match node.store_page_token base_address page_size tok with
    | none => none
    | some (node1, _) =>
      PageStorageTreeNode.store_all node1 base_address page_size rest

@[simp] theorem PageStorageTreeNode.page_token_mk (t m c) :
    (PageStorageTreeNode.mk t m c).page_token = t := rfl

@[simp] theorem PageStorageTreeNode.max_allocable_page_size_mk (t m c) :
    (PageStorageTreeNode.mk t m c).max_allocable_page_size = m := rfl

@[simp] theorem PageStorageTreeNode.children_mk (t m c) :
    (PageStorageTreeNode.mk t m c).children = c := rfl

def emptyNode : PageStorageTreeNode := .mk none none []

def leaf_node (base sb : Nat) (s' : PageSize) (j : Nat) : PageStorageTreeNode :=
  .mk (some ⟨base + j * sb, s'⟩) (some s') []

theorem store_leaf (base' : Nat) (s' : PageSize) :
    emptyNode.store_page_token base' s' ⟨base', s'⟩ =
      some (.mk (some ⟨base', s'⟩) (some s') [], s') := by
  rw [PageStorageTreeNode.store_page_token]
  simp [emptyNode, PageStorageTreeNode.store_page_token_in_this_node,
    PageStorageTreeNode.page_token, PageStorageTreeNode.max_allocable_page_size]

def sibling_subtree (base : Nat) (s' : PageSize) (k : Nat) (stored : List Nat) :
    PageStorageTreeNode :=
  .mk none (if stored.isEmpty then none else some s')
    ((List.range k).map (fun j =>
      if j ∈ stored then leaf_node base s'.in_bytes s' j else emptyNode))

def merged_parent (base : Nat) (s : PageSize) (k : Nat) : PageStorageTreeNode :=
  .mk (some ⟨base, s⟩) (some s) ((List.range k).map (fun _ => emptyNode))

theorem PageSize.ne_of_smaller {s t : PageSize} (h : s.smaller = some t) : s ≠ t := by
  intro he
  exact absurd (PageSize.rank_lt_of_smaller h) (by rw [he]; omega)

theorem PageSize.in_bytes_pos (s : PageSize) : 0 < s.in_bytes := by
  cases s <;> decide

theorem PageSize.nsp_pos {s t : PageSize} (h : s.smaller = some t) :
    0 < s.number_of_smaller_pages := by
  cases s <;> simp_all [PageSize.smaller] <;> decide

theorem set_map_range {α : Type} (k i : Nat) (f : Nat → α) (x : α) :
    ((List.range k).map f).set i x =
      (List.range k).map (fun j => if j = i then x else f j) := by
  apply List.ext_getElem
  · simp
  intro j hj hj2
  simp only [List.getElem_set, List.getElem_map, List.getElem_range]
  by_cases hij : i = j
  · simp [hij]
  · have : ¬ j = i := fun h => hij h.symm
    simp [hij, this]

theorem get?_map_range {α : Type} (k i : Nat) (f : Nat → α) (hi : i < k) :
    ((List.range k).map f).get? i = some (f i) := by
  rw [List.get?_map, List.get?_range hi]
  rfl

theorem list_all_map {α β : Type} (l : List α) (f : α → β) (p : β → Bool) :
    (l.map f).all p = l.all (fun a => p (f a)) := by
  induction l with
  | nil => rfl
  | cons a t ih => simp [ih]

theorem range_all_iff (k : Nat) (q : Nat → Bool) :
    (List.range k).all q = true ↔ ∀ j, j < k → q j = true := by
  rw [List.all_eq_true]
  constructor
  · intro h j hj
    exact h j (List.mem_range.mpr hj)
  · intro h j hj
    exact h j (List.mem_range.mp hj)

theorem try_merge_full (base : Nat) (s s' : PageSize) (k : Nat) (hk : 0 < k)
    (M : Option PageSize) (cond : Nat → Prop) [DecidablePred cond]
    (hfull : ∀ j, j < k → cond j) :
    (PageStorageTreeNode.mk none M ((List.range k).map (fun j =>
        if cond j then leaf_node base s'.in_bytes s' j
        else emptyNode))).try_to_merge_page_tokens s =
      some (merged_parent base s k) := by
  have hmap : ((List.range k).map (fun j =>
      if cond j then leaf_node base s'.in_bytes s' j else emptyNode)) =
      (List.range k).map (fun j => leaf_node base s'.in_bytes s' j) := by
    apply List.map_congr_left
    intro j hj
    simp [hfull j (List.mem_range.mp hj)]
  rw [hmap]
  simp only [PageStorageTreeNode.try_to_merge_page_tokens, PageStorageTreeNode.children_mk]
  rw [if_pos]
  · have hpages : ((List.range k).map (fun j => leaf_node base s'.in_bytes s' j)).filterMap
        (fun c => c.page_token) =
        (List.range k).map (fun j =>
          ({ start_address := base + j * s'.in_bytes, size := s' } : Page)) := by
      rw [List.filterMap_map]
      have : ((fun c => PageStorageTreeNode.page_token c) ∘
          fun j => leaf_node base s'.in_bytes s' j) =
          fun j => some ({ start_address := base + j * s'.in_bytes, size := s' } : Page) := by
        funext j
        rfl
      rw [this]
      rw [show (fun j => some ({ start_address := base + j * s'.in_bytes, size := s' } : Page)) =
        some ∘ (fun j => ({ start_address := base + j * s'.in_bytes, size := s' } : Page)) from rfl]
      rw [List.filterMap_eq_map]
    have hchildren : ((List.range k).map (fun j => leaf_node base s'.in_bytes s' j)).map
        (fun c => PageStorageTreeNode.mk none none c.children) =
        (List.range k).map (fun _ => emptyNode) := by
      rw [List.map_map]
      rfl
    rw [hpages, hchildren]
    obtain ⟨m, rfl⟩ : ∃ m, k = m + 1 := ⟨k - 1, by omega⟩
    simp only [PageStorageTreeNode.store_page_token_in_this_node,
      PageStorageTreeNode.page_token_mk, Option.isSome_none, Bool.false_eq_true, if_false]
    rw [List.range_succ_eq_map]
    simp [Page.merge, merged_parent, List.range_succ_eq_map]
  · rw [list_all_map]
    rw [range_all_iff]
    intro j hj
    rfl

theorem try_merge_not_full (base : Nat) (s s' : PageSize) (k : Nat)
    (M : Option PageSize) (cond : Nat → Prop) [DecidablePred cond]
    (hnf : ¬ ∀ j, j < k → cond j) :
    (PageStorageTreeNode.mk none M ((List.range k).map (fun j =>
        if cond j then leaf_node base s'.in_bytes s' j
        else emptyNode))).try_to_merge_page_tokens s =
      some (PageStorageTreeNode.mk none M ((List.range k).map (fun j =>
        if cond j then leaf_node base s'.in_bytes s' j else emptyNode))) := by
  simp only [PageStorageTreeNode.try_to_merge_page_tokens, PageStorageTreeNode.children_mk]
  rw [if_neg]
  intro hc
  rw [list_all_map, range_all_iff] at hc
  apply hnf
  intro j hj
  have := hc j hj
  by_cases hcj : cond j
  · exact hcj
  · simp [hcj, emptyNode] at this

theorem store_sibling_step (s s' : PageSize) (hs : s.smaller = some s')
    (base i : Nat) (stored : List Nat) (N : PageStorageTreeNode)
    (hN : N.init_children_if_needed s =
      sibling_subtree base s' s.number_of_smaller_pages stored)
    (hi : i < s.number_of_smaller_pages) (hnew : i ∉ stored) :
    N.store_page_token base s ⟨base + i * s'.in_bytes, s'⟩ =
      (if ∀ j < s.number_of_smaller_pages, j ∈ i :: stored then
        some (merged_parent base s s.number_of_smaller_pages, s)
      else
        some (sibling_subtree base s' s.number_of_smaller_pages (i :: stored), s')) := by
  have hrank := PageSize.rank_lt_of_smaller hs
  have hne : s ≠ s' := PageSize.ne_of_smaller hs
  have hsb : 0 < s'.in_bytes := PageSize.in_bytes_pos s'
  rw [PageStorageTreeNode.store_page_token]
  simp only [hs, hN]
  rw [if_neg (by simp; omega)]
  rw [if_neg (by simpa using hne)]
  split
  · rename_i heq
    rw [hs] at heq
    exact absurd heq (by simp)
  rename_i child_page_size heq
  have hcs : s' = child_page_size := by
    rw [hs] at heq
    exact Option.some_inj.mp heq
  subst hcs
  -- reduce calculate_child_index
  have hidx : (sibling_subtree base s' s.number_of_smaller_pages stored).calculate_child_index
      base s { start_address := base + i * s'.in_bytes, size := s' } = some i := by
    simp only [PageStorageTreeNode.calculate_child_index, hs, sibling_subtree,
      PageStorageTreeNode.children_mk]
    rw [if_neg (by simp; omega)]
    have harith : (base + i * s'.in_bytes - base) / s'.in_bytes = i := by
      rw [Nat.add_sub_cancel_left, Nat.mul_div_cancel _ hsb]
    rw [harith]
    simp [hi]
  rw [hidx]
  dsimp only
  have hget : (sibling_subtree base s' s.number_of_smaller_pages stored).children.get? i =
      some emptyNode := by
    simp only [sibling_subtree, PageStorageTreeNode.children_mk]
    rw [get?_map_range _ _ _ hi]
    simp [hnew]
  rw [hget]
  dsimp only
  rw [store_leaf]
  dsimp only
  have hset : (sibling_subtree base s' s.number_of_smaller_pages stored).children.set i
      (PageStorageTreeNode.mk (some { start_address := base + i * s'.in_bytes, size := s' })
        (some s') []) =
      (List.range s.number_of_smaller_pages).map (fun j =>
        if j ∈ i :: stored then leaf_node base s'.in_bytes s' j else emptyNode) := by
    simp only [sibling_subtree, PageStorageTreeNode.children_mk]
    rw [set_map_range]
    apply List.map_congr_left
    intro j hj
    by_cases hji : j = i
    · subst hji
      simp [leaf_node]
    · simp [hji]
  rw [hset]
  simp only [sibling_subtree, PageStorageTreeNode.page_token_mk,
    PageStorageTreeNode.max_allocable_page_size_mk]
  by_cases hfull : ∀ j, j < s.number_of_smaller_pages → j ∈ i :: stored
  · rw [try_merge_full base s s' _ (by omega) _ _ hfull]
    dsimp only
    rw [if_pos hfull]
    rw [if_neg (by simp [optRank, merged_parent]; omega)]
    rfl
  · rw [try_merge_not_full base s s' _ _ _ hfull]
    dsimp only
    rw [if_neg hfull]
    by_cases hemp : stored.isEmpty
    · rw [if_pos hemp]
      rw [if_pos (by simp [optRank])]
      simp [sibling_subtree]
    · rw [if_neg hemp]
      rw [if_neg (by simp [optRank])]
      simp [sibling_subtree]

theorem init_children_noop (s : PageSize) (t : Option Page) (m : Option PageSize)
    (c : List PageStorageTreeNode) (hc : c ≠ []) :
    (PageStorageTreeNode.mk t m c).init_children_if_needed s = .mk t m c := by
  simp [PageStorageTreeNode.init_children_if_needed, hc]

theorem init_children_empty (s s' : PageSize) (base : Nat) :
    (PageStorageTreeNode.mk none none []).init_children_if_needed s =
      sibling_subtree base s' s.number_of_smaller_pages [] := by
  simp only [PageStorageTreeNode.init_children_if_needed, PageStorageTreeNode.children_mk,
    List.isEmpty_nil, if_true, sibling_subtree, List.not_mem_nil, if_false,
    PageStorageTreeNode.page_token_mk, PageStorageTreeNode.max_allocable_page_size_mk]
  rw [List.map_const', List.length_range]
  rfl

theorem sibling_subtree_init_noop (s s' : PageSize) (base : Nat) (stored : List Nat)
    (hk : 0 < s.number_of_smaller_pages) :
    (sibling_subtree base s' s.number_of_smaller_pages stored).init_children_if_needed s =
      sibling_subtree base s' s.number_of_smaller_pages stored := by
  apply init_children_noop
  simp only [ne_eq, List.map_eq_nil_iff, List.range_eq_nil]
  omega

theorem store_all_merges (s s' : PageSize) (hs : s.smaller = some s') (base : Nat)
    (rest : List Nat) :
    ∀ (stored : List Nat) (N : PageStorageTreeNode),
      N.init_children_if_needed s = sibling_subtree base s' s.number_of_smaller_pages stored →
      (∀ j, j ∈ stored → j ∉ rest) →
      rest.Nodup →
      (∀ j, j ∈ rest → j < s.number_of_smaller_pages) →
      (∀ j, j < s.number_of_smaller_pages → j ∈ stored ∨ j ∈ rest) →
      rest ≠ [] →
      N.store_all base s (rest.map (fun i =>
        ({ start_address := base + i * s'.in_bytes, size := s' } : Page))) =
        some (merged_parent base s s.number_of_smaller_pages) := by
  induction rest with
  | nil =>
    intro stored N _ _ _ _ _ hne
    exact absurd rfl hne
  | cons i rest ih =>
    intro stored N hN hdisj hnd hsub hcov _
    have hi : i < s.number_of_smaller_pages := hsub i (by simp)
    have hinotrest : i ∉ rest := (List.nodup_cons.mp hnd).1
    have hnew : i ∉ stored := fun hmem => hdisj i hmem (by simp)
    rw [List.map_cons]
    rw [PageStorageTreeNode.store_all]
    rw [store_sibling_step s s' hs base i stored N hN hi hnew]
    cases rest with
    | nil =>
      have hfull : ∀ j, j < s.number_of_smaller_pages → j ∈ i :: stored := by
        intro j hj
        rcases hcov j hj with h | h
        · exact List.mem_cons_of_mem _ h
        · simp only [List.mem_singleton] at h
          simp [h]
      rw [if_pos hfull]
      simp [PageStorageTreeNode.store_all]
    | cons j2 rest2 =>
      have hnotfull : ¬ ∀ j, j < s.number_of_smaller_pages → j ∈ i :: stored := by
        intro hc
        have hj2k : j2 < s.number_of_smaller_pages := hsub j2 (by simp)
        rcases List.mem_cons.mp (hc j2 hj2k) with h | h
        · exact hinotrest (by simp [h.symm])
        · exact hdisj j2 h (by simp)
      rw [if_neg hnotfull]
      dsimp only
      apply ih (i :: stored)
      · exact sibling_subtree_init_noop s s' base (i :: stored) (by omega)
      · intro j hj
        rcases List.mem_cons.mp hj with h | h
        · subst h
          exact hinotrest
        · intro hr
          exact hdisj j h (List.mem_cons_of_mem _ hr)
      · exact (List.nodup_cons.mp hnd).2
      · intro j hj
        exact hsub j (List.mem_cons_of_mem _ hj)
      · intro j hj
        rcases hcov j hj with h | h
        · exact Or.inl (List.mem_cons_of_mem _ h)
        · rcases List.mem_cons.mp h with h2 | h2
          · exact Or.inl (by simp [h2])
          · exact Or.inr h2
      · simp

theorem acquire_from_merged (base : Nat) (s : PageSize) (k : Nat) :
    (merged_parent base s k).acquire_page_token base s s =
      AcquireResult.ok { start_address := base, size := s }
        (.mk none none ((List.range k).map (fun _ => emptyNode))) := by
  rw [PageStorageTreeNode.acquire_page_token]
  simp [merged_parent, optRank, PageStorageTreeNode.acquire_page_token_from_this_node]

/-- C5: for every node size `s` that has a smaller page size `s'`, after
`store_page_token` has inserted all `k = s / s'` sibling tokens of one parent
node, in any order, the siblings are merged into one token of size `s` at the
parent's base address, held by the parent, and a subsequent acquisition of
size `s` on that subtree succeeds and returns exactly that token. -/
theorem buddy_merge_after_storing_all_siblings (s s' : PageSize) (hs : s.smaller = some s')
    (base : Nat) (order : List Nat)
    (hperm : order.Perm (List.range s.number_of_smaller_pages)) :
    ∃ n, (PageStorageTreeNode.mk none none []).store_all base s
        (order.map (fun i => ({ start_address := base + i * s'.in_bytes, size := s' } : Page)))
        = some n ∧
      n.page_token = some { start_address := base, size := s } ∧
      ∃ n2, n.acquire_page_token base s s =
        AcquireResult.ok { start_address := base, size := s } n2 := by
  have hk : 0 < s.number_of_smaller_pages := PageSize.nsp_pos hs
  refine ⟨merged_parent base s s.number_of_smaller_pages, ?_, rfl,
    ⟨_, acquire_from_merged base s s.number_of_smaller_pages⟩⟩
  apply store_all_merges s s' hs base order []
  · exact init_children_empty s s' base
  · intro j hj
    exact absurd hj (List.not_mem_nil j)
  · exact hperm.nodup_iff.mpr (List.nodup_range _)
  · intro j hj
    exact List.mem_range.mp (hperm.mem_iff.mp hj)
  · intro j hj
    exact Or.inr (hperm.mem_iff.mpr (List.mem_range.mpr hj))
  · intro he
    rw [he] at hperm
    have := hperm.length_eq
    simp at this
    omega

/-- Witness for C5: the 512 sibling 4 KiB tokens of one 2 MiB parent, stored
in reverse order, merge and the 2 MiB acquisition succeeds. -/
theorem buddy_merge_witness :
    ∃ n, (PageStorageTreeNode.mk none none []).store_all 0 PageSize.size2MiB
        (((List.range 512).reverse).map (fun i =>
          ({ start_address := 0 + i * PageSize.size4KiB.in_bytes,
             size := PageSize.size4KiB } : Page))) = some n ∧
      n.page_token = some { start_address := 0, size := PageSize.size2MiB } ∧
      ∃ n2, n.acquire_page_token 0 PageSize.size2MiB PageSize.size2MiB =
        AcquireResult.ok { start_address := 0, size := PageSize.size2MiB } n2 :=
  buddy_merge_after_storing_all_siblings PageSize.size2MiB PageSize.size4KiB rfl 0
    ((List.range 512).reverse) (by
      have h : PageSize.size2MiB.number_of_smaller_pages = 512 := rfl
      rw [h]
      exact List.reverse_perm (List.range 512))

theorem replicate_eq_map_range {α : Type} (k : Nat) (a : α) :
    List.replicate k a = (List.range k).map (fun _ => a) := by
  rw [List.map_const', List.length_range]

theorem store_divided_fills (s s' : PageSize) (hs : s.smaller = some s') (base : Nat)
    (P : Option Page) (M : Option PageSize) :
    ∀ (todo done : List Nat),
      (∀ j, j ∈ done → j ∉ todo) →
      todo.Nodup →
      (∀ j, j ∈ todo → j < s.number_of_smaller_pages) →
      (PageStorageTreeNode.mk P M ((List.range s.number_of_smaller_pages).map (fun j =>
          if j ∈ done then leaf_node base s'.in_bytes s' j
          else emptyNode))).store_divided_tokens base s
        (todo.map (fun i => ({ start_address := base + i * s'.in_bytes, size := s' } : Page))) =
      some (.mk P M ((List.range s.number_of_smaller_pages).map (fun j =>
        if j ∈ done ∨ j ∈ todo then leaf_node base s'.in_bytes s' j else emptyNode))) := by
  intro todo
  induction todo with
  | nil =>
    intro done _ _ _
    rw [List.map_nil, PageStorageTreeNode.store_divided_tokens]
    have hfn : (fun j => if j ∈ done ∨ j ∈ ([] : List Nat) then leaf_node base s'.in_bytes s' j
        else emptyNode) =
        (fun j => if j ∈ done then leaf_node base s'.in_bytes s' j else emptyNode) := by
      funext j
      simp
    rw [hfn]
  | cons i todo ih =>
    intro done hdisj hnd hsub
    have hrank := PageSize.rank_lt_of_smaller hs
    have hsb : 0 < s'.in_bytes := PageSize.in_bytes_pos s'
    have hi : i < s.number_of_smaller_pages := hsub i (by simp)
    have hinew : i ∉ done := fun hmem => hdisj i hmem (by simp)
    rw [List.map_cons, PageStorageTreeNode.store_divided_tokens]
    have hidx : (PageStorageTreeNode.mk P M ((List.range s.number_of_smaller_pages).map (fun j =>
        if j ∈ done then leaf_node base s'.in_bytes s' j
        else emptyNode))).calculate_child_index base s
        { start_address := base + i * s'.in_bytes, size := s' } = some i := by
      simp only [PageStorageTreeNode.calculate_child_index, hs, PageStorageTreeNode.children_mk]
      rw [if_neg (by simp; omega)]
      have harith : (base + i * s'.in_bytes - base) / s'.in_bytes = i := by
        rw [Nat.add_sub_cancel_left, Nat.mul_div_cancel _ hsb]
      rw [harith]
      simp [hi]
    rw [hidx]
    dsimp only
    rw [show (PageStorageTreeNode.mk P M ((List.range s.number_of_smaller_pages).map (fun j =>
        if j ∈ done then leaf_node base s'.in_bytes s' j
        else emptyNode))).children.get? i = some emptyNode by
      rw [PageStorageTreeNode.children_mk, get?_map_range _ _ _ hi]
      simp [hinew]]
    dsimp only
    rw [show emptyNode.store_page_token_in_this_node
        { start_address := base + i * s'.in_bytes, size := s' } =
      some (PageStorageTreeNode.mk
        (some { start_address := base + i * s'.in_bytes, size := s' }) (some s') []) from rfl]
    dsimp only
    rw [show (PageStorageTreeNode.mk P M ((List.range s.number_of_smaller_pages).map (fun j =>
        if j ∈ done then leaf_node base s'.in_bytes s' j
        else emptyNode))).children.set i (PageStorageTreeNode.mk
          (some { start_address := base + i * s'.in_bytes, size := s' }) (some s') []) =
      (List.range s.number_of_smaller_pages).map (fun j =>
        if j ∈ i :: done then leaf_node base s'.in_bytes s' j else emptyNode) by
      rw [PageStorageTreeNode.children_mk, set_map_range]
      apply List.map_congr_left
      intro j _
      by_cases hji : j = i
      · subst hji
        simp [leaf_node]
      · simp [hji]]
    simp only [PageStorageTreeNode.page_token_mk, PageStorageTreeNode.max_allocable_page_size_mk]
    rw [ih (i :: done)
      (by
        intro j hj
        rcases List.mem_cons.mp hj with h | h
        · subst h
          exact (List.nodup_cons.mp hnd).1
        · intro hr
          exact hdisj j h (List.mem_cons_of_mem _ hr))
      (List.nodup_cons.mp hnd).2
      (fun j hj => hsub j (List.mem_cons_of_mem _ hj))]
    have hfn2 : (fun j => if j ∈ i :: done ∨ j ∈ todo then leaf_node base s'.in_bytes s' j
        else emptyNode) =
        (fun j => if j ∈ done ∨ j ∈ i :: todo then leaf_node base s'.in_bytes s' j
          else emptyNode) := by
      funext j
      have hiff : (j ∈ i :: done ∨ j ∈ todo) ↔ (j ∈ done ∨ j ∈ i :: todo) := by
        simp only [List.mem_cons]
        tauto
      by_cases hj : j ∈ i :: done ∨ j ∈ todo
      · rw [if_pos hj, if_pos (hiff.mp hj)]
      · rw [if_neg hj, if_neg (fun hc => hj (hiff.mpr hc))]
    rw [hfn2]

theorem divide_fresh (s s' : PageSize) (hs : s.smaller = some s') (base : Nat) :
    (PageStorageTreeNode.mk (some { start_address := base, size := s }) (some s)
        ((List.range s.number_of_smaller_pages).map (fun _ => emptyNode))).divide_page_token
      base s =
    some (.mk none (some s') ((List.range s.number_of_smaller_pages).map
      (fun j => leaf_node base s'.in_bytes s' j))) := by
  have hnsp : s.number_of_smaller_pages = s.in_bytes / s'.in_bytes := by
    simp [PageSize.number_of_smaller_pages, hs]
  simp only [PageStorageTreeNode.divide_page_token, PageStorageTreeNode.page_token_mk]
  have hdiv : Page.divide { start_address := base, size := s } =
      (List.range s.number_of_smaller_pages).map (fun i =>
        ({ start_address := base + i * s'.in_bytes, size := s' } : Page)) := by
    simp only [Page.divide, hs, hnsp]
  rw [hdiv]
  rw [if_neg (by simp)]
  simp only [PageStorageTreeNode.max_allocable_page_size_mk, PageStorageTreeNode.children_mk]
  have hshape : (fun (_ : Nat) => emptyNode) = (fun j =>
      if j ∈ ([] : List Nat) then leaf_node base s'.in_bytes s' j else emptyNode) := by
    funext j
    simp
  rw [show ((PageStorageTreeNode.mk none (some s)
      ((List.range s.number_of_smaller_pages).map (fun _ => emptyNode))).store_divided_tokens
      base s ((List.range s.number_of_smaller_pages).map (fun i =>
        ({ start_address := base + i * s'.in_bytes, size := s' } : Page)))) =
    some (.mk none (some s) ((List.range s.number_of_smaller_pages).map (fun j =>
      if j ∈ ([] : List Nat) ∨ j ∈ List.range s.number_of_smaller_pages then
        leaf_node base s'.in_bytes s' j else emptyNode))) by
    rw [hshape]
    exact store_divided_fills s s' hs base none (some s) (List.range s.number_of_smaller_pages)
      [] (by simp) (List.nodup_range _) (fun j hj => List.mem_range.mp hj)]
  simp only [PageStorageTreeNode.max_allocable_page_size_mk, PageStorageTreeNode.page_token_mk,
    PageStorageTreeNode.children_mk]
  rw [hs]
  have hfn : (fun j => if j ∈ ([] : List Nat) ∨ j ∈ List.range s.number_of_smaller_pages then
      leaf_node base s'.in_bytes s' j else emptyNode) =
      (fun j => if j ∈ List.range s.number_of_smaller_pages then
        leaf_node base s'.in_bytes s' j else emptyNode) := by
    funext j
    simp
  rw [hfn]
  dsimp only
  have hfn3 : (fun j => if j ∈ List.range s.number_of_smaller_pages then
      leaf_node base s'.in_bytes s' j else emptyNode) =
      (fun (j : Nat) => if j < s.number_of_smaller_pages then
        leaf_node base s'.in_bytes s' j else emptyNode) := by
    funext j
    simp [List.mem_range]
  rw [hfn3]
  congr 2
  apply List.map_congr_left
  intro j hj
  rw [if_pos (List.mem_range.mp hj)]

theorem acquire_fresh_exact (s : PageSize) (base : Nat) :
    (PageStorageTreeNode.mk (some { start_address := base, size := s }) (some s)
        ([] : List PageStorageTreeNode)).acquire_page_token base s s =
      AcquireResult.ok { start_address := base, size := s } (.mk none none []) := by
  rw [PageStorageTreeNode.acquire_page_token]
  simp [optRank, PageStorageTreeNode.acquire_page_token_from_this_node]

theorem findIdx_leaf_zero (s' req : PageSize) (base : Nat) (k : Nat) (hk : 0 < k)
    (hreq : req.rank ≤ s'.rank) :
    ((List.range k).map (fun j => leaf_node base s'.in_bytes s' j)).findIdx?
      (fun c => decide (optRank (some req) ≤ optRank c.max_allocable_page_size)) = some 0 := by
  obtain ⟨m, rfl⟩ : ∃ m, k = m + 1 := ⟨k - 1, by omega⟩
  rw [List.range_succ_eq_map, List.map_cons]
  simp only [List.findIdx?]
  rw [if_pos]
  simp [leaf_node, optRank]
  omega

theorem acquire_fresh_step (s s' req : PageSize) (hs : s.smaller = some s')
    (base : Nat) (hreq : req.rank ≤ s'.rank)
    (tok : Page) (n2 : PageStorageTreeNode)
    (hinner : (PageStorageTreeNode.mk (some { start_address := base, size := s' }) (some s')
        ([] : List PageStorageTreeNode)).acquire_page_token base s' req =
      AcquireResult.ok tok n2) :
    ∃ n3, (PageStorageTreeNode.mk (some { start_address := base, size := s }) (some s)
        ([] : List PageStorageTreeNode)).acquire_page_token base s req =
      AcquireResult.ok tok n3 := by
  have hrank := PageSize.rank_lt_of_smaller hs
  have hk : 0 < s.number_of_smaller_pages := PageSize.nsp_pos hs
  have hne : s ≠ req := by
    intro he
    rw [he] at hrank
    omega
  rw [PageStorageTreeNode.acquire_page_token]
  rw [if_neg (by simp [optRank]; omega)]
  rw [if_neg hne]
  split
  · rename_i heq
    rw [hs] at heq
    exact absurd heq (by simp)
  rename_i child_page_size heq
  have hcs : s' = child_page_size := by
    rw [hs] at heq
    exact Option.some_inj.mp heq
  subst hcs
  have hinit : (PageStorageTreeNode.mk (some { start_address := base, size := s }) (some s)
      ([] : List PageStorageTreeNode)).init_children_if_needed s =
      .mk (some { start_address := base, size := s }) (some s)
        ((List.range s.number_of_smaller_pages).map (fun _ => emptyNode)) := by
    simp only [PageStorageTreeNode.init_children_if_needed, PageStorageTreeNode.children_mk,
      List.isEmpty_nil, if_true]
    rw [replicate_eq_map_range]
    rfl
  rw [hinit]
  dsimp only
  rw [if_pos (by simp)]
  rw [divide_fresh s s' hs base]
  simp only [PageStorageTreeNode.children_mk, PageStorageTreeNode.page_token_mk,
    PageStorageTreeNode.max_allocable_page_size_mk]
  rw [findIdx_leaf_zero s' req base _ hk hreq]
  dsimp only
  rw [get?_map_range _ _ _ hk]
  dsimp only
  have hleaf : leaf_node base s'.in_bytes s' 0 =
      .mk (some { start_address := base, size := s' }) (some s') [] := by
    simp [leaf_node]
  rw [hleaf]
  rw [show base + 0 * s'.in_bytes = base by omega]
  rw [hinner]
  exact ⟨_, rfl⟩

theorem acquire_from_fresh (s req : PageSize) (base : Nat) (hlt : req.rank < s.rank) :
    ∃ n2, (PageStorageTreeNode.mk (some { start_address := base, size := s }) (some s)
        ([] : List PageStorageTreeNode)).acquire_page_token base s req =
      AcquireResult.ok { start_address := base, size := req } n2 := by
  cases s with
  | size4KiB =>
    exact absurd hlt (by simp [PageSize.rank])
  | size2MiB =>
    cases req with
    | size4KiB =>
      exact acquire_fresh_step PageSize.size2MiB PageSize.size4KiB PageSize.size4KiB rfl
        base (by decide) _ _ (acquire_fresh_exact PageSize.size4KiB base)
    | size2MiB => exact absurd hlt (by decide)
    | size1GiB => exact absurd hlt (by decide)
  | size1GiB =>
    cases req with
    | size4KiB =>
      obtain ⟨n2, h2⟩ := acquire_fresh_step PageSize.size2MiB PageSize.size4KiB
        PageSize.size4KiB rfl base (by decide) _ _ (acquire_fresh_exact PageSize.size4KiB base)
      exact acquire_fresh_step PageSize.size1GiB PageSize.size2MiB PageSize.size4KiB rfl
        base (by decide) _ _ h2
    | size2MiB =>
      exact acquire_fresh_step PageSize.size1GiB PageSize.size2MiB PageSize.size2MiB rfl
        base (by decide) _ _ (acquire_fresh_exact PageSize.size2MiB base)
    | size1GiB => exact absurd hlt (by decide)

/-- C6: when `acquire_page_token` reaches a node holding a token larger than
the requested size, (a) `divide_page_token` splits the token into
`k = this_size / smaller_size` child tokens with child `i` holding the token
at `base + i * smaller_size`; (b) `calculate_child_index` always places a
token at child index `(token_addr - node_base) / smaller_size`; (c) after a
split every child advertises the smaller size, so the first child whose
subtree advertises the requested size is child 0; and (d) the recursion
descends leftmost, returning the token at the node's own base address. -/
theorem acquire_splits_and_descends_first_fit :
    (∀ (s s' : PageSize), s.smaller = some s' → ∀ base : Nat,
      ∃ node', (PageStorageTreeNode.mk (some { start_address := base, size := s }) (some s)
          ((List.range s.number_of_smaller_pages).map (fun _ => emptyNode))).divide_page_token
          base s = some node' ∧
        ∀ i, i < s.number_of_smaller_pages →
          node'.children.get? i = some (PageStorageTreeNode.mk
            (some { start_address := base + i * s'.in_bytes, size := s' }) (some s') [])) ∧
    (∀ (node : PageStorageTreeNode) (base : Nat) (s s' : PageSize), s.smaller = some s' →
      ∀ tok : Page, tok.size.rank < s.rank →
      (tok.start_address - base) / s'.in_bytes < node.children.length →
      node.calculate_child_index base s tok =
        some ((tok.start_address - base) / s'.in_bytes)) ∧
    (∀ (s' req : PageSize) (base k : Nat), 0 < k → req.rank ≤ s'.rank →
      ((List.range k).map (fun j => leaf_node base s'.in_bytes s' j)).findIdx?
        (fun c => decide (optRank (some req) ≤ optRank c.max_allocable_page_size)) = some 0) ∧
    (∀ (s req : PageSize) (base : Nat), req.rank < s.rank →
      ∃ n2, (PageStorageTreeNode.mk (some { start_address := base, size := s }) (some s)
          ([] : List PageStorageTreeNode)).acquire_page_token base s req =
        AcquireResult.ok { start_address := base, size := req } n2) := by
  refine ⟨?_, ?_, ?_, ?_⟩
  · intro s s' hs base
    refine ⟨_, divide_fresh s s' hs base, ?_⟩
    intro i hi
    rw [PageStorageTreeNode.children_mk, get?_map_range _ _ _ hi]
    rfl
  · intro node base s s' hs tok hrank hlen
    simp [PageStorageTreeNode.calculate_child_index, hrank, hs, hlen]
  · intro s' req base k hk hreq
    exact findIdx_leaf_zero s' req base k hk hreq
  · intro s req base hlt
    exact acquire_from_fresh s req base hlt

/-- Witness for C6 at a 2 MiB node holding its token at base `0x200000`:
the split places child 3's token at `0x200000 + 3 * 4096`, the child index of
that token is 3, the first advertising child is 0, and acquiring 4 KiB
returns the token at the node's base. -/
theorem acquire_split_witness :
    (∃ node', (PageStorageTreeNode.mk
        (some { start_address := 0x200000, size := PageSize.size2MiB })
        (some PageSize.size2MiB)
        ((List.range PageSize.size2MiB.number_of_smaller_pages).map
          (fun _ => emptyNode))).divide_page_token 0x200000 PageSize.size2MiB = some node' ∧
      node'.children.get? 3 = some (PageStorageTreeNode.mk
        (some { start_address := 0x200000 + 3 * PageSize.size4KiB.in_bytes,
                size := PageSize.size4KiB }) (some PageSize.size4KiB) [])) ∧
    ∃ n2, (PageStorageTreeNode.mk
        (some { start_address := 0x200000, size := PageSize.size2MiB })
        (some PageSize.size2MiB) ([] : List PageStorageTreeNode)).acquire_page_token
        0x200000 PageSize.size2MiB PageSize.size4KiB =
      AcquireResult.ok { start_address := 0x200000, size := PageSize.size4KiB } n2 := by
  constructor
  · obtain ⟨node', h1, h2⟩ := acquire_splits_and_descends_first_fit.1
      PageSize.size2MiB PageSize.size4KiB rfl 0x200000
    exact ⟨node', h1, h2 3 (by decide)⟩
  · exact acquire_splits_and_descends_first_fit.2.2.2
      PageSize.size2MiB PageSize.size4KiB 0x200000 (by decide)
